import Mathlib

/-!
Verification of the transaction ledger core of a personal expense tracker
(single source file `src/App.js`).

The embedding below translates the ledger / aggregator / validator logic of
`App.js` into Lean:

* number values are modelled as exact rationals (`ℚ`); the JavaScript `NaN`,
  which the validation path can produce via `parseFloat`, is modelled
  explicitly by the type `JNum`;
* `toFixed(2)` is modelled as rounding to two decimal places (`round2`);
* ISO `"YYYY-MM-DD"` date strings are modelled by a structured `Date` with a
  0-based `month`, matching what `new Date(s).getFullYear()/getMonth()/getDate()`
  extract from a well-formed date string;
* the JavaScript object used by the `reduce` accumulator of the doughnut chart is
  modelled as an association list in key-insertion order;
* `Array.prototype.sort`, stable with a consistent comparator, is modelled by
  `List.mergeSort`.
-/

namespace ExpenseApp

/-- Transaction type, the `type` field: `expense` or `income` (App.js line 192). -/
inductive TType where
  | expense
  | income
deriving DecidableEq, Repr

/-- A calendar date as extracted from an ISO `"YYYY-MM-DD"` string by
`new Date`: `month` is 0-based exactly as `Date.prototype.getMonth`. -/
structure Date where
  year : Nat
  month : Nat
  day : Nat
deriving DecidableEq, Repr

/-- A transaction record as held in the `transactions` state
(App.js line 227: Firestore doc data plus `id`). -/
structure Transaction where
  id : String
  text : String
  amount : ℚ
  category : String
  type : TType
  date : Date
deriving DecidableEq, Repr

/-- `expenseCategories` (App.js line 72). -/
def expenseCategories : List String :=
  ["Food", "Transport", "Bills", "Gadgets", "Entertainment", "Other"]

/-- `incomeCategories` (App.js line 73). -/
def incomeCategories : List String :=
  ["Salary", "Freelance", "Investment", "Other"]

/-- Sum of a list of rationals by left fold, as
`arr.reduce((acc, item) => acc + item, 0)`. -/
def sumQ (l : List ℚ) : ℚ := l.foldl (· + ·) 0

/-- `x.toFixed(2)`: round to two decimal places.  the JavaScript `toFixed`
rounds a positive value half up; `round` on `ℚ` is `⌊x + 1/2⌋`. -/
def round2 (q : ℚ) : ℚ := (round (q * 100) : ℚ) / 100

/-- The summary figures `{ total, income, expense }` (App.js lines 236-242). -/
structure Summary where
  total : ℚ
  income : ℚ
  expense : ℚ
deriving DecidableEq, Repr

/-- The `useMemo` computing `{ total, income, expense }` over the whole
`transactions` list (App.js lines 236-242):
`total` sums all amounts, `income` the positive ones, `expense` is minus the
sum of the negative ones; each goes through `toFixed(2)`. -/
def summarize (ts : List Transaction) : Summary :=
  let amounts := ts.map (·.amount)
  { total := round2 (sumQ amounts)
    income := round2 (sumQ (amounts.filter (fun a => decide (0 < a))))
    expense := round2 (sumQ (amounts.filter (fun a => decide (a < 0))) * (-1)) }

/-- The month filter inside `filteredTransactions` (App.js lines 247-250):
keep records whose parsed date has the selected year and month. -/
def selectForMonth (ts : List Transaction) (year month : Nat) : List Transaction :=
  ts.filter (fun t => decide (t.date.year = year ∧ t.date.month = month))

/-- The type filter, one of `all`, `income`, `expense` (App.js line 188). -/
inductive Filter where
  | all
  | income
  | expense
deriving DecidableEq, Repr

/-- `filteredTransactions` (App.js lines 244-253): month filter first, then
the type filter unless it is `all`. -/
def filteredTransactions (ts : List Transaction) (year month : Nat) (f : Filter) :
    List Transaction :=
  let monthly := selectForMonth ts year month
  match f with
  | .all => monthly
  | .income => monthly.filter (fun t => decide (t.type = TType.income))
  | .expense => monthly.filter (fun t => decide (t.type = TType.expense))

/-- `new Date(a.date) ≤ new Date(b.date)` on well-formed date strings:
lexicographic comparison of (year, month, day). -/
def dateLe (a b : Date) : Bool :=
  decide (a.year < b.year ∨ (a.year = b.year ∧
    (a.month < b.month ∨ (a.month = b.month ∧ a.day ≤ b.day))))

/-- The snapshot sort (App.js line 228):
`transactionsData.sort((a, b) => new Date(b.date) - new Date(a.date))`,
i.e. a stable sort putting later dates first. -/
def sortByDateDesc (ts : List Transaction) : List Transaction :=
  ts.mergeSort (fun a b => dateLe b.date a.date)

/-- The doughnut chart accumulator step (App.js line 98):
`acc[t.category] = (acc[t.category] || 0) + Math.abs(t.amount)` on a plain
object, modelled as an association list in key-insertion order. -/
def addAmount (acc : List (String × ℚ)) (cat : String) (v : ℚ) : List (String × ℚ) :=
  match acc with
  | [] => [(cat, v)]
  | (c, x) :: rest =>
    if c = cat then (c, x + v) :: rest else (c, x) :: addAmount rest cat v

/-- `expenseData` of the doughnut chart (App.js lines 95-100): restrict to
records whose `type` is `expense`, then accumulate `Math.abs(amount)` by category. -/
def categoryBreakdown (ts : List Transaction) : List (String × ℚ) :=
  (ts.filter (fun t => decide (t.type = TType.expense))).foldl
    (fun acc t => addAmount acc t.category |t.amount|) []

/-- Sum of the values of a category breakdown
(`Object.values(expenseData)` summed). -/
def breakdownSum (acc : List (String × ℚ)) : ℚ := acc.foldl (fun a p => a + p.2) 0

/-- What `ExpenseTracker` hands the display surface for one
(records, year, month, filter) selection. -/
structure DisplayData where
  summary : Summary
  records : List Transaction
  chart : List (String × ℚ)
deriving DecidableEq, Repr

/-- The render of `ExpenseTracker` (App.js lines 376-416): the summary comes
from the whole `transactions` list (lines 236-242), the history list from
`filteredTransactions` (line 415), and the chart from the whole
`transactions` list (line 394). -/
def aggregate (ts : List Transaction) (year month : Nat) (f : Filter) : DisplayData :=
  { summary := summarize ts
    records := filteredTransactions ts year month f
    chart := categoryBreakdown ts }

/-! ### The command validator (`handleAddOrUpdateTransaction`, App.js lines 255-285)

The `amount` state of the form is either a string typed into the input or, after
`handleEditTransaction`, the number `Math.abs(transaction.amount)`.  The
validator applies JavaScript truthiness (`!amount`) and `parseFloat` to it.
`parseFloat` can return `NaN`, modelled by `JNum.nan`; every comparison with
`NaN` is false. -/

/-- A JavaScript number that may be `NaN`. -/
inductive JNum where
  | nan
  | val (q : ℚ)
deriving DecidableEq, Repr

/-- `Math.abs` on a possibly-`NaN` number. -/
def JNum.abs : JNum → JNum
  | .nan => .nan
  | .val q => .val |q|

/-- Unary minus on a possibly-`NaN` number. -/
def JNum.neg : JNum → JNum
  | .nan => .nan
  | .val q => .val (-q)

/-- `x <= 0` on a possibly-`NaN` number: false for `NaN`. -/
def JNum.leZero : JNum → Bool
  | .nan => false
  | .val q => decide (q ≤ 0)

/-- Value of one decimal digit, `none` for a non-digit. -/
def digitVal (c : Char) : Option Nat :=
  if c.isDigit then some (c.toNat - 48) else none

/-- Value of a digit run read left to right. -/
def digitsToNat (ds : List Char) : Nat :=
  ds.foldl (fun a c => a * 10 + (c.toNat - 48)) 0

/-- The digit-level part of `parseFloat`: skip leading whitespace, optional
sign, integer digits, optional `.` and fraction digits; trailing garbage is
ignored.  `none` when there is no digit at all (`NaN`); otherwise
`some (isNegative, allDigitsValue, 10 ^ fractionLength)`, so that the parsed
value is `± allDigitsValue / 10 ^ fractionLength`.  (The exponent and
`Infinity` forms of the full JavaScript grammar are not modelled; no claim
depends on them, and the number input of the app blocks the `e` key, App.js
lines 347-352.) -/
def parseParts (cs : List Char) : Option (Bool × Nat × Nat) :=
  let cs0 := cs.dropWhile Char.isWhitespace
  let sign : Bool × List Char :=
    match cs0 with
    | '-' :: r => (true, r)
    | '+' :: r => (false, r)
    | r => (false, r)
  let ip := sign.2.takeWhile Char.isDigit
  let rest := sign.2.dropWhile Char.isDigit
  let fp : List Char :=
    match rest with
    | '.' :: r => r.takeWhile Char.isDigit
    | _ => []
  if ip = [] ∧ fp = [] then none
  else some (sign.1, digitsToNat (ip ++ fp), 10 ^ fp.length)

/-- Form the parsed number from the digit components. -/
def partsToJNum : Option (Bool × Nat × Nat) → JNum
  | none => .nan
  | some (neg, n, d) => .val ((if neg then -1 else 1) * ((n : ℚ) / (d : ℚ)))

/-- `parseFloat` on a character list. -/
def parseFloatChars (cs : List Char) : JNum := partsToJNum (parseParts cs)

/-- `parseFloat` on a string. -/
def parseFloatStr (s : String) : JNum := parseFloatChars s.data

/-- The `amount` state of the form: a raw string from the input, or the number
`Math.abs(transaction.amount)` set by `handleEditTransaction` (App.js
line 296). -/
inductive AmountVal where
  | str (s : String)
  | num (q : ℚ)
deriving DecidableEq, Repr

/-- JavaScript truthiness test `!amount`: the empty string and the number 0
are falsy. -/
def AmountVal.falsy : AmountVal → Bool
  | .str s => s = ""
  | .num q => decide (q = 0)

/-- `parseFloat(amount)`: a number is first converted to its decimal string,
which parses back to the same value. -/
def AmountVal.parseFloat : AmountVal → JNum
  | .str s => parseFloatStr s
  | .num q => .val q

/-- The form state a submit reads: `text`, `amount`, `category`,
`transactionType`, `date` (App.js lines 189-193); `date` is `none` when the
date input is empty. -/
structure Draft where
  text : String
  amount : AmountVal
  category : String
  type : TType
  date : Option Date
deriving DecidableEq, Repr

/-- The validation error kinds of the specification taxonomy, keyed to the
user-facing messages the code stores in `formError`:
`MissingField` maps to the fill-out-all-fields message (App.js line 261),
`InvalidAmount` to the positive-number message (App.js line 265);
the code has no path producing `InvalidCategory`. -/
inductive ValidationError where
  | MissingField
  | InvalidAmount
  | InvalidCategory
deriving DecidableEq, Repr

instance {ε α : Type} [DecidableEq ε] [DecidableEq α] : DecidableEq (Except ε α) :=
  fun a b =>
    match a, b with
    | .error x, .error y =>
      if h : x = y then isTrue (by rw [h]) else isFalse (by simp [h])
    | .error _, .ok _ => isFalse (by simp)
    | .ok _, .error _ => isFalse (by simp)
    | .ok x, .ok y =>
      if h : x = y then isTrue (by rw [h]) else isFalse (by simp [h])

/-- The normalized `transactionData` object (App.js line 271).  Its `amount`
is a `JNum` because the normalization arithmetic is applied to the result of
`parseFloat`. -/
structure TransactionData where
  text : String
  amount : JNum
  category : String
  type : TType
  date : Date
deriving DecidableEq, Repr

/-- The validation and normalization part of `handleAddOrUpdateTransaction`
(App.js lines 260-271): `!text || !date` gives the missing-field error;
`!amount || parseFloat(amount) <= 0` gives the amount error; otherwise
`amountValue` is `-Math.abs(parseFloat(amount))` for an expense and
`Math.abs(parseFloat(amount))` for an income, and `transactionData` carries
the other fields unchanged. -/
def validateCreateOrUpdate (d : Draft) : Except ValidationError TransactionData :=
  match d.date with
  | none => .error .MissingField
  | some dt =>
    if d.text = "" then .error .MissingField
    else if d.amount.falsy ∨ d.amount.parseFloat.leZero then .error .InvalidAmount
    else
      let amountValue :=
        if d.type = TType.expense then d.amount.parseFloat.abs.neg
        else d.amount.parseFloat.abs
      .ok { text := d.text, amount := amountValue, category := d.category,
            type := d.type, date := dt }

/-- The outcome a submit hands the Record Store (App.js lines 273-279):
an update command when `editingId` is set, a create command otherwise, and
no command when validation failed. -/
inductive SubmitResult where
  | created (data : TransactionData)
  | updated (id : String) (data : TransactionData)
  | rejected (e : ValidationError)
deriving DecidableEq, Repr

/-- Submit with the current edit target (App.js lines 255-285, with
`editingId` from line 194). -/
def submitOutcome (editingId : Option String) (d : Draft) : SubmitResult :=
  match validateCreateOrUpdate d with
  | .error e => .rejected e
  | .ok data =>
    match editingId with
    | some i => .updated i data
    | none => .created data

/-- `handleEditTransaction` (App.js lines 295-299): load the record into the
form state — `text`, `Math.abs(amount)` as a number, `type`, `category`,
`date`. -/
def handleEditTransaction (r : Transaction) : Draft :=
  { text := r.text, amount := .num |r.amount|, category := r.category,
    type := r.type, date := some r.date }

/-! ### The `App` auth-state-change callback (App.js lines 480-492)

`App` declares `const [user, setUser] = useState(null)` and
`const [loading] = useState(true)` — the comment on lines 482-483 records
that `setLoading` was removed — yet the `onAuthStateChanged` callback body is
`setUser(currentUser); setLoading(false);`.  Calling an identifier resolves
it against the bindings in scope; an unbound identifier raises a
`ReferenceError`.  We model the callback as the ordered list of function
names it calls, run against the list of names in scope. -/

/-- How a JavaScript call sequence ends: normally, or with a
`ReferenceError` naming the first unbound identifier. -/
inductive JsOutcome where
  | ok
  | refError (name : String)
deriving DecidableEq, Repr

/-- Run a sequence of calls: each call requires the name of its callee to be
bound in scope, else it raises `ReferenceError` and the rest never runs. -/
def runCalls (scope : List String) : List String → JsOutcome
  | [] => .ok
  | f :: rest => if f ∈ scope then runCalls scope rest else .refError f

/-- The identifiers bound in the scope of the `onAuthStateChanged`
callback of `App`: the callback parameter (line 487), the hook bindings of `App`
(lines 481, 484 — note line 484 destructures only `loading`), and the
module-level bindings of App.js (lines 39-41, 45, 72-74, 87, 151, 186, 425,
480) together with the imported names used in `App` (lines 1-22). -/
def appAuthScope : List String :=
  ["currentUser",
   "user", "setUser", "loading",
   "app", "auth", "db", "getFriendlyErrorMessage",
   "expenseCategories", "incomeCategories", "currencySymbols",
   "DoughnutChart", "TransactionItem", "ExpenseTracker", "AuthComponent", "App",
   "React", "useState", "useMemo", "useEffect", "useRef",
   "onAuthStateChanged", "signOut"]

/-- The function calls the `onAuthStateChanged` callback body makes, in
order (App.js lines 488-489). -/
def appAuthCallbackCalls : List String := ["setUser", "setLoading"]

/-! Concrete inputs used in the scenarios, counterexamples and witnesses. -/

/-- A rational that is an exact number of cents, i.e. what accumulating
two-decimal money values without drift yields. -/
def isCents (q : ℚ) : Prop := ∃ k : ℤ, q = k / 100

/-- Scenario record from spec §8: expense −20, Food, 2024-01-05. -/
def scenarioExpenseJan : Transaction :=
  { id := "t1", text := "groceries", amount := -20, category := "Food",
    type := .expense, date := ⟨2024, 0, 5⟩ }

/-- Scenario record from spec §8: income 100, Salary, 2024-01-10. -/
def scenarioIncomeJan : Transaction :=
  { id := "t2", text := "salary", amount := 100, category := "Salary",
    type := .income, date := ⟨2024, 0, 10⟩ }

/-- Scenario record from spec §8: expense −5, Food, 2024-02-01. -/
def scenarioExpenseFeb : Transaction :=
  { id := "t3", text := "snacks", amount := -5, category := "Food",
    type := .expense, date := ⟨2024, 1, 1⟩ }

/-- The three-record scenario set of spec §8, in creation order. -/
def scenarioRecords : List Transaction :=
  [scenarioExpenseJan, scenarioIncomeJan, scenarioExpenseFeb]

/-- A malformed record: typed as expense but with a positive amount. -/
def positiveExpense : Transaction :=
  { id := "p1", text := "oops", amount := 5, category := "Food",
    type := .expense, date := ⟨2024, 0, 2⟩ }

/-- A record with amount 0, typed income; it satisfies
`type = expense ↔ amount < 0` but not `amount ≠ 0`. -/
def zeroIncome : Transaction :=
  { id := "z1", text := "gift", amount := 0, category := "Salary",
    type := .income, date := ⟨2024, 0, 7⟩ }

/-- A draft whose amount text does not parse as a number. -/
def nanDraft : Draft :=
  { text := "x", amount := .str "abc", category := "Food",
    type := .expense, date := some ⟨2024, 0, 1⟩ }

/-- A second draft whose amount text does not parse as a number. -/
def nanExpenseDraft : Draft :=
  { text := "y", amount := .str "x9", category := "Bills",
    type := .expense, date := some ⟨2024, 0, 3⟩ }

/-- A draft with the negative amount text of the spec §8 scenario. -/
def negFiveDraft : Draft :=
  { text := "x", amount := .str "-5", category := "Food",
    type := .expense, date := some ⟨2024, 0, 1⟩ }

/-- A draft with amount text 0.01. -/
def centDraft : Draft :=
  { text := "x", amount := .str "0.01", category := "Food",
    type := .expense, date := some ⟨2024, 0, 1⟩ }

/-- A draft whose category (Salary) is not in the expense enumeration even
though its declared type is expense. -/
def badCategoryDraft : Draft :=
  { text := "x", amount := .str "5", category := "Salary",
    type := .expense, date := some ⟨2024, 0, 1⟩ }

/-- The command the validator produces from `nanExpenseDraft`: its amount is
`NaN`. -/
def nanExpenseData : TransactionData :=
  { text := "y", amount := .nan, category := "Bills",
    type := .expense, date := ⟨2024, 0, 3⟩ }

/-- The command the validator produces from `centDraft`. -/
def centData : TransactionData :=
  { text := "x", amount := .val (-(1/100)), category := "Food",
    type := .expense, date := ⟨2024, 0, 1⟩ }

/-! Helper lemmas about the date order. -/

theorem dateLe_refl (a : Date) : dateLe a a = true := by
  simp [dateLe]

theorem dateLe_trans {a b c : Date} (h1 : dateLe a b = true) (h2 : dateLe b c = true) :
    dateLe a c = true := by
  simp only [dateLe, decide_eq_true_eq] at h1 h2 ⊢
  omega

theorem dateLe_total (a b : Date) : (dateLe a b || dateLe b a) = true := by
  simp only [dateLe, Bool.or_eq_true, decide_eq_true_eq]
  omega

/-- Transitivity of the descending comparator used by the snapshot sort. -/
theorem descLe_trans (a b c : Transaction)
    (h1 : dateLe b.date a.date = true) (h2 : dateLe c.date b.date = true) :
    dateLe c.date a.date = true := dateLe_trans h2 h1

/-- Totality of the descending comparator used by the snapshot sort. -/
theorem descLe_total (a b : Transaction) :
    (dateLe b.date a.date || dateLe a.date b.date) = true := dateLe_total b.date a.date

/-- Stability of the snapshot sort: for each fixed date, the records carrying
that date come out of `sortByDateDesc` in their original relative order. -/
theorem filter_sortByDateDesc (ts : List Transaction) (d : Date) :
    (sortByDateDesc ts).filter (fun t => decide (t.date = d))
      = ts.filter (fun t => decide (t.date = d)) := by
  set p : Transaction → Bool := fun t => decide (t.date = d) with hp
  have hpair : (ts.filter p).Pairwise (fun a b => dateLe b.date a.date = true) := by
    refine List.pairwise_of_forall_mem_list ?_
    intro a ha b hb
    have ha2 : a.date = d := by
      have := (List.mem_filter.mp ha).2
      simpa [hp] using this
    have hb2 : b.date = d := by
      have := (List.mem_filter.mp hb).2
      simpa [hp] using this
    rw [ha2, hb2]
    exact dateLe_refl d
  have hsub : List.Sublist (ts.filter p) (sortByDateDesc ts) := by
    exact List.sublist_mergeSort descLe_trans descLe_total hpair (List.filter_sublist ts)
  have hsub2 : List.Sublist (ts.filter p) ((sortByDateDesc ts).filter p) := by
    have h1 : List.Sublist ((ts.filter p).filter p) ((sortByDateDesc ts).filter p) :=
      hsub.filter p
    rwa [List.filter_filter, (by simp : (fun a => p a && p a) = p)] at h1
  have hperm : List.Perm ((sortByDateDesc ts).filter p) (ts.filter p) :=
    (List.mergeSort_perm ts _).filter p
  exact (hsub2.eq_of_length hperm.length_eq.symm).symm

/-! Claim theorems C1, C3, C4. -/

/-- C1: the spec says no handler ever terminates with an uncaught fault and in
particular that the auth-state-change path in `App` runs without referencing
an undefined binding.  The code violates this: the `onAuthStateChanged`
callback calls `setLoading`, which is bound nowhere in scope (line 484
destructures only `loading`, and the comment above it records that
`setLoading` was removed), so the callback raises an uncaught
`ReferenceError` on every auth-state change. -/
theorem C1_auth_callback_reference_error :
    runCalls appAuthScope appAuthCallbackCalls = JsOutcome.refError "setLoading" := by
  decide

/-- C3: a record is in `selectForMonth ts y m` iff it is in `ts` and its date
has year `y` and month `m`; all records with a different year or month are
excluded. -/
theorem C3_selectForMonth_membership (ts : List Transaction) (y m : Nat) (r : Transaction) :
    r ∈ selectForMonth ts y m ↔ r ∈ ts ∧ r.date.year = y ∧ r.date.month = m := by
  simp [selectForMonth, List.mem_filter]

/-- C4: the month selection over the sorted snapshot is ordered by date
descending; records with equal dates keep their snapshot (insertion) order,
deterministically; and in the three-record scenario of spec §8 the January
selection is exactly the income-100 record followed by the expense-minus-20
record. -/
theorem C4_selectForMonth_order (ts : List Transaction) (y m : Nat) (d : Date) :
    (selectForMonth (sortByDateDesc ts) y m).Pairwise
        (fun a b => dateLe b.date a.date = true)
    ∧ (sortByDateDesc ts).filter (fun t => decide (t.date = d))
        = ts.filter (fun t => decide (t.date = d))
    ∧ filteredTransactions (sortByDateDesc scenarioRecords) 2024 0 Filter.all
        = [scenarioIncomeJan, scenarioExpenseJan] := by
  refine ⟨?_, filter_sortByDateDesc ts d, ?_⟩
  · have hs : (sortByDateDesc ts).Pairwise (fun a b => dateLe b.date a.date = true) := by
      have := @List.sorted_mergeSort Transaction (fun a b => dateLe b.date a.date)
        descLe_trans descLe_total ts
      simpa [sortByDateDesc] using this
    exact hs.sublist (List.filter_sublist _)
  · simp [sortByDateDesc, List.mergeSort, List.splitInTwo, List.splitAt_eq, List.merge,
      dateLe, scenarioRecords, scenarioExpenseJan, scenarioIncomeJan, scenarioExpenseFeb,
      filteredTransactions, selectForMonth]

/-! Helper lemmas about sums and rounding. -/

theorem foldl_add_shift (l : List ℚ) (x : ℚ) :
    l.foldl (· + ·) x = x + l.foldl (· + ·) 0 := by
  induction l generalizing x with
  | nil => simp
  | cons a t ih =>
    simp only [List.foldl]
    rw [ih (x + a), ih (0 + a)]
    ring

theorem sumQ_nil : sumQ [] = 0 := rfl

theorem sumQ_cons (a : ℚ) (l : List ℚ) : sumQ (a :: l) = a + sumQ l := by
  simp only [sumQ, List.foldl]
  rw [foldl_add_shift]
  ring

/-- Splitting a sum into its positive and negative parts (elements equal to
zero contribute to neither side, and to nothing). -/
theorem sumQ_split (l : List ℚ) :
    sumQ l = sumQ (l.filter (fun a => decide (0 < a)))
      + sumQ (l.filter (fun a => decide (a < 0))) := by
  induction l with
  | nil => simp [sumQ]
  | cons a t ih =>
    rcases lt_trichotomy a 0 with h | h | h
    · have h1 : ¬ (0 < a) := by linarith
      simp only [List.filter_cons, decide_eq_true_eq, h, h1, if_true, if_false,
        decide_eq_false h1, sumQ_cons, decide_eq_true h]
      rw [ih]; ring
    · subst h
      simp only [List.filter_cons, sumQ_cons]
      norm_num [ih]
    · have h1 : ¬ (a < 0) := by linarith
      simp only [List.filter_cons, decide_eq_true_eq, h, h1, if_true, if_false,
        decide_eq_false h1, sumQ_cons, decide_eq_true h]
      rw [ih]; ring

/-- Rounding to two decimals moves a value by at most half a cent. -/
theorem round2_sub_abs (q : ℚ) : |round2 q - q| ≤ 1 / 200 := by
  have h := abs_sub_round (q * 100)
  have heq : round2 q - q = -((q * 100 - (round (q * 100) : ℚ)) / 100) := by
    rw [round2]; ring
  rw [heq, abs_neg, abs_div]
  have h100 : |(100 : ℚ)| = 100 := by norm_num
  rw [h100]
  linarith

/-- Claim theorem helper: rounding fixes exact-cent values. -/
theorem round2_cents {q : ℚ} (h : isCents q) : round2 q = q := by
  obtain ⟨k, rfl⟩ := h
  rw [round2]
  have h1 : (k : ℚ) / 100 * 100 = (k : ℚ) := by
    field_simp
  rw [h1, round_intCast]

/-! Claim theorem C5. -/

/-- C5: for every non-empty record set, the displayed balance equals income
minus expense up to the rounding tolerance accumulated by the three
independent `toFixed(2)` roundings (half a cent each); and the summary is
computed over the entire record set, independent of the selected month and
type filter. -/
theorem C5_balance_identity (ts : List Transaction) (hne : ts ≠ []) :
    |(summarize ts).total - ((summarize ts).income - (summarize ts).expense)| ≤ 3 / 200
    ∧ ∀ (y m : Nat) (f : Filter), (aggregate ts y m f).summary = summarize ts := by
  constructor
  · set amounts := ts.map (·.amount) with ham
    set P := sumQ (amounts.filter (fun a => decide (0 < a))) with hP
    set N := sumQ (amounts.filter (fun a => decide (a < 0))) with hN
    have hS : sumQ amounts = P + N := sumQ_split amounts
    have htot : (summarize ts).total = round2 (P + N) := by
      simp only [summarize, ← ham, ← hP, ← hN, hS]
    have hinc : (summarize ts).income = round2 P := by
      simp only [summarize, ← ham, ← hP]
    have hexp : (summarize ts).expense = round2 (-N) := by
      simp only [summarize, ← ham, ← hN]
      norm_num
    rw [htot, hinc, hexp]
    have e1 := round2_sub_abs (P + N)
    have e2 := round2_sub_abs P
    have e3 := round2_sub_abs (-N)
    have key : round2 (P + N) - (round2 P - round2 (-N))
        = (round2 (P + N) - (P + N)) - (round2 P - P) + (round2 (-N) - (-N)) := by
      ring
    rw [key]
    have t1 : |(round2 (P + N) - (P + N)) - (round2 P - P) + (round2 (-N) - (-N))|
        ≤ |round2 (P + N) - (P + N)| + |round2 P - P| + |round2 (-N) - (-N)| := by
      calc |(round2 (P + N) - (P + N)) - (round2 P - P) + (round2 (-N) - (-N))|
          ≤ |(round2 (P + N) - (P + N)) - (round2 P - P)| + |round2 (-N) - (-N)| :=
            abs_add _ _
        _ ≤ |round2 (P + N) - (P + N)| + |round2 P - P| + |round2 (-N) - (-N)| := by
            have := abs_sub (round2 (P + N) - (P + N)) (round2 P - P)
            linarith
    linarith
  · intro y m f
    rfl

/-- Witness for C5 at the three-record scenario set of spec §8. -/
theorem C5_balance_identity_witness :
    |(summarize scenarioRecords).total
        - ((summarize scenarioRecords).income - (summarize scenarioRecords).expense)| ≤ 3 / 200
    ∧ ∀ (y m : Nat) (f : Filter),
        (aggregate scenarioRecords y m f).summary = summarize scenarioRecords :=
  C5_balance_identity scenarioRecords (by decide)

/-! Helper lemmas about the category breakdown. -/

theorem breakdownSum_eq_sumQ_map (acc : List (String × ℚ)) :
    breakdownSum acc = sumQ (acc.map Prod.snd) := by
  simp [breakdownSum, sumQ, List.foldl_map]

theorem sumQ_snd_addAmount (acc : List (String × ℚ)) (cat : String) (v : ℚ) :
    sumQ ((addAmount acc cat v).map Prod.snd) = sumQ (acc.map Prod.snd) + v := by
  induction acc with
  | nil => simp [addAmount, sumQ_cons, sumQ_nil]
  | cons p rest ih =>
    cases p with
    | mk c2 x =>
      by_cases h : c2 = cat
      · simp only [addAmount, if_pos h, List.map_cons, sumQ_cons]
        ring
      · simp only [addAmount, if_neg h, List.map_cons, sumQ_cons, ih]
        ring

theorem breakdownSum_addAmount (acc : List (String × ℚ)) (cat : String) (v : ℚ) :
    breakdownSum (addAmount acc cat v) = breakdownSum acc + v := by
  rw [breakdownSum_eq_sumQ_map, breakdownSum_eq_sumQ_map, sumQ_snd_addAmount]

theorem breakdownSum_fold (l : List Transaction) (acc : List (String × ℚ)) :
    breakdownSum (l.foldl (fun acc t => addAmount acc t.category |t.amount|) acc)
      = breakdownSum acc + sumQ (l.map (fun t => |t.amount|)) := by
  induction l generalizing acc with
  | nil => simp [sumQ]
  | cons t l ih =>
    simp only [List.foldl, List.map_cons, sumQ_cons]
    rw [ih, breakdownSum_addAmount]
    ring

theorem mem_keys_addAmount (acc : List (String × ℚ)) (cat c : String) (v : ℚ) :
    c ∈ (addAmount acc cat v).map Prod.fst ↔ c ∈ acc.map Prod.fst ∨ c = cat := by
  induction acc with
  | nil => simp [addAmount]
  | cons p rest ih =>
    cases p with
    | mk c2 x =>
      by_cases h : c2 = cat
      · subst h
        simp [addAmount, List.mem_cons]
        tauto
      · simp [addAmount, if_neg h, List.mem_cons, ih]
        tauto

theorem mem_keys_fold (l : List Transaction) (acc : List (String × ℚ)) (c : String) :
    c ∈ (l.foldl (fun acc t => addAmount acc t.category |t.amount|) acc).map Prod.fst
      ↔ c ∈ acc.map Prod.fst ∨ ∃ t ∈ l, t.category = c := by
  induction l generalizing acc with
  | nil => simp
  | cons t l ih =>
    simp only [List.foldl]
    rw [ih, mem_keys_addAmount]
    constructor
    · intro h
      rcases h with (h | h) | h
      · exact Or.inl h
      · exact Or.inr ⟨t, List.mem_cons_self t l, h.symm⟩
      · obtain ⟨u, hu, hc⟩ := h
        exact Or.inr ⟨u, List.mem_cons_of_mem t hu, hc⟩
    · intro h
      rcases h with h | ⟨u, hu, hc⟩
      · exact Or.inl (Or.inl h)
      · rcases List.mem_cons.mp hu with rfl | hu2
        · exact Or.inl (Or.inr hc.symm)
        · exact Or.inr ⟨u, hu2, hc⟩

/-- Absolute values of an all-negative list sum to minus its sum. -/
theorem sumQ_map_abs_of_neg (l : List ℚ) (h : ∀ a ∈ l, a < 0) :
    sumQ (l.map (fun a => |a|)) = -sumQ l := by
  induction l with
  | nil => simp [sumQ]
  | cons a t ih =>
    simp only [List.map_cons, sumQ_cons]
    rw [ih (fun b hb => h b (List.mem_cons_of_mem a hb)),
      abs_of_neg (h a (List.mem_cons_self a t))]
    ring

theorem isCents_zero : isCents 0 := ⟨0, by norm_num⟩

theorem isCents_add {a b : ℚ} (ha : isCents a) (hb : isCents b) : isCents (a + b) := by
  obtain ⟨k, rfl⟩ := ha
  obtain ⟨j, rfl⟩ := hb
  exact ⟨k + j, by push_cast; ring⟩

theorem isCents_abs {a : ℚ} (ha : isCents a) : isCents |a| := by
  obtain ⟨k, rfl⟩ := ha
  refine ⟨|k|, ?_⟩
  rw [abs_div]
  push_cast
  norm_num

theorem isCents_sumQ (l : List ℚ) (h : ∀ a ∈ l, isCents a) : isCents (sumQ l) := by
  induction l with
  | nil => exact isCents_zero
  | cons a t ih =>
    rw [sumQ_cons]
    exact isCents_add (h a (List.mem_cons_self a t))
      (ih fun b hb => h b (List.mem_cons_of_mem a hb))

/-! Claim theorems C6. -/

/-- C6 counterexample: the claim quantifies over every record sequence, but
on a sequence containing a record typed expense with a positive amount the
breakdown sum (which keys on `type`) is 5 while `summarize` of the
type-filtered subset (which keys on the sign) reports expense 0. -/
theorem C6_breakdown_sum_cex :
    breakdownSum (categoryBreakdown [positiveExpense]) = 5
    ∧ (summarize ([positiveExpense].filter (fun t => decide (t.type = TType.expense)))).expense
        = 0
    ∧ breakdownSum (categoryBreakdown [positiveExpense])
        ≠ (summarize ([positiveExpense].filter
            (fun t => decide (t.type = TType.expense)))).expense := by
  have h1 : breakdownSum (categoryBreakdown [positiveExpense]) = 5 := by
    norm_num [categoryBreakdown, breakdownSum, addAmount, positiveExpense, List.filter]
  have h2 : (summarize ([positiveExpense].filter
      (fun t => decide (t.type = TType.expense)))).expense = 0 := by
    norm_num [summarize, sumQ, round2, positiveExpense, List.filter]
  refine ⟨h1, h2, ?_⟩
  rw [h1, h2]
  norm_num

/-- C6 amended: for record sequences whose records respect the sign
invariant (`type = expense ↔ amount < 0`) and carry exact-cent amounts, the
breakdown sum equals the `totalExpense` that `summarize` yields on the
expense-only subset; and — for every record sequence, with no hypothesis —
the breakdown has a key exactly for the categories appearing in at least
one expense record. -/
theorem C6_breakdown_sum_amended (ts : List Transaction) :
    ((∀ r ∈ ts, r.type = TType.expense ↔ r.amount < 0) →
      (∀ r ∈ ts, isCents r.amount) →
      breakdownSum (categoryBreakdown ts)
        = (summarize (ts.filter (fun t => decide (t.type = TType.expense)))).expense)
    ∧ ∀ c : String,
        (c ∈ (categoryBreakdown ts).map Prod.fst
          ↔ ∃ r ∈ ts, r.type = TType.expense ∧ r.category = c) := by
  set es := ts.filter (fun t => decide (t.type = TType.expense)) with hes
  have hmem : ∀ r ∈ es, r ∈ ts ∧ r.type = TType.expense := by
    intro r hr
    have := List.mem_filter.mp hr
    exact ⟨this.1, by simpa using this.2⟩
  constructor
  · intro hsign hcents
    have hneg : ∀ a ∈ es.map (·.amount), a < 0 := by
      intro a ha
      obtain ⟨r, hr, rfl⟩ := List.mem_map.mp ha
      obtain ⟨hrts, hrty⟩ := hmem r hr
      exact (hsign r hrts).mp hrty
    have hlhs : breakdownSum (categoryBreakdown ts)
        = sumQ (es.map (fun t => |t.amount|)) := by
      rw [categoryBreakdown, ← hes, breakdownSum_fold]
      simp [breakdownSum]
    have habs : es.map (fun t => |t.amount|) = (es.map (·.amount)).map (fun a => |a|) := by
      simp [List.map_map, Function.comp]
    have hfilt : (es.map (·.amount)).filter (fun a => decide (a < 0))
        = es.map (·.amount) := by
      rw [List.filter_eq_self]
      intro a ha
      simpa using hneg a ha
    have hrhs : (summarize es).expense = round2 (-(sumQ (es.map (·.amount)))) := by
      simp only [summarize]
      rw [hfilt]
      norm_num
    have hsum : sumQ (es.map (fun t => |t.amount|)) = -(sumQ (es.map (·.amount))) := by
      rw [habs]
      exact sumQ_map_abs_of_neg _ hneg
    have hc : isCents (sumQ (es.map (fun t => |t.amount|))) := by
      refine isCents_sumQ _ ?_
      intro a ha
      obtain ⟨r, hr, rfl⟩ := List.mem_map.mp ha
      exact isCents_abs (hcents r (hmem r hr).1)
    rw [hlhs, hrhs, ← hsum, round2_cents hc]
  · intro c
    rw [categoryBreakdown, ← hes, mem_keys_fold]
    simp only [List.map_nil, List.not_mem_nil, false_or]
    constructor
    · intro ⟨t, ht, hc⟩
      obtain ⟨h1, h2⟩ := hmem t ht
      exact ⟨t, h1, h2, hc⟩
    · intro ⟨r, hr, hty, hc⟩
      refine ⟨r, ?_, hc⟩
      rw [hes, List.mem_filter]
      exact ⟨hr, by simpa using hty⟩

/-- Witness for the amended C6 at the three-record scenario set. -/
theorem C6_breakdown_sum_amended_witness :
    (breakdownSum (categoryBreakdown scenarioRecords)
      = (summarize (scenarioRecords.filter
          (fun t => decide (t.type = TType.expense)))).expense)
    ∧ ∀ c : String,
        (c ∈ (categoryBreakdown scenarioRecords).map Prod.fst
          ↔ ∃ r ∈ scenarioRecords, r.type = TType.expense ∧ r.category = c) :=
  ⟨(C6_breakdown_sum_amended scenarioRecords).1 (by decide)
    (by
      intro r hr
      have : r = scenarioExpenseJan ∨ r = scenarioIncomeJan ∨ r = scenarioExpenseFeb := by
        simpa [scenarioRecords] using hr
      rcases this with rfl | rfl | rfl
      · exact ⟨-2000, by norm_num [scenarioExpenseJan]⟩
      · exact ⟨10000, by norm_num [scenarioIncomeJan]⟩
      · exact ⟨-500, by norm_num [scenarioExpenseFeb]⟩),
   (C6_breakdown_sum_amended scenarioRecords).2⟩

/-! Helper lemmas about the validator. -/

/-- A draft amount that parses to a nonzero number is not falsy: the only
falsy string is the empty one, which parses to `NaN`, and the only falsy
number is 0. -/
theorem falsy_eq_false_of_parseFloat {a : AmountVal} {q : ℚ}
    (hq : a.parseFloat = .val q) (hq0 : q ≠ 0) : a.falsy = false := by
  cases a with
  | str s =>
    by_cases h : s = ""
    · subst h
      have : parseFloatStr "" = JNum.nan := by decide
      rw [AmountVal.parseFloat] at hq
      rw [this] at hq
      exact absurd hq (by simp)
    · simpa [AmountVal.falsy] using h
  | num q0 =>
    rw [AmountVal.parseFloat] at hq
    have : q0 = q := by simpa using hq
    subst this
    simpa [AmountVal.falsy] using hq0

/-! Claim theorems C7, C2, C8. -/

/-- C7 counterexample: a draft whose non-empty amount text fails to parse as
a number (so `parseFloat` yields `NaN`) is not rejected with `InvalidAmount`
as the claim demands; because `NaN <= 0` is false, validation accepts it. -/
theorem C7_invalid_amount_cex :
    nanDraft.amount.parseFloat = JNum.nan
    ∧ validateCreateOrUpdate nanDraft ≠ .error .InvalidAmount
    ∧ validateCreateOrUpdate nanDraft
        = .ok { text := "x", amount := .nan, category := "Food",
                type := .expense, date := ⟨2024, 0, 1⟩ } := by
  refine ⟨by decide, ?_, by decide⟩
  intro h
  have h2 : validateCreateOrUpdate nanDraft
      = .ok { text := "x", amount := .nan, category := "Food",
              type := .expense, date := ⟨2024, 0, 1⟩ } := by decide
  rw [h2] at h
  exact absurd h (by simp)

/-- C7 amended: the validator rejects with `InvalidAmount` every draft (with
non-empty text and present date) whose amount is falsy or parses to a number
that is 0 or negative — in particular the string -5 — and accepts amount
0.01; a draft with missing text or date is reported as `MissingField`
regardless of its amount; but a non-empty amount that fails to parse
(`NaN`) is accepted rather than rejected. -/
theorem C7_invalid_amount_amended (d : Draft) :
    ((d.text = "" ∨ d.date = none) → validateCreateOrUpdate d = .error .MissingField)
    ∧ (d.text ≠ "" → d.date ≠ none →
        (d.amount.falsy = true ∨ ∃ q ≤ 0, d.amount.parseFloat = .val q) →
        validateCreateOrUpdate d = .error .InvalidAmount)
    ∧ validateCreateOrUpdate centDraft = .ok centData := by
  refine ⟨?_, ?_, ?_⟩
  · intro h
    rcases h with h | h
    · cases hd : d.date with
      | none => simp [validateCreateOrUpdate, hd]
      | some dt => simp [validateCreateOrUpdate, hd, h]
    · simp [validateCreateOrUpdate, h]
  · intro htext hdate hbad
    cases hd : d.date with
    | none => exact absurd hd hdate
    | some dt =>
      have hcond : (d.amount.falsy ∨ d.amount.parseFloat.leZero) := by
        rcases hbad with h | ⟨q, hq0, hq⟩
        · exact Or.inl (by simp [h])
        · refine Or.inr ?_
          rw [hq, JNum.leZero]
          simpa using hq0
      simp [validateCreateOrUpdate, hd, htext, hcond]
  · have h : parseParts "0.01".data = some (false, 1, 100) := by decide
    have ht : ("x" : String) ≠ "" := by decide
    have ha : ("0.01" : String) ≠ "" := by decide
    norm_num [validateCreateOrUpdate, centDraft, centData, AmountVal.falsy,
      AmountVal.parseFloat, parseFloatStr, parseFloatChars, h, ht, ha, partsToJNum,
      JNum.leZero, JNum.abs, JNum.neg, abs_of_pos]

/-- Witness for the amended C7: the draft with amount text -5 from the spec
§8 scenario is rejected with `InvalidAmount`. -/
theorem C7_invalid_amount_amended_witness :
    validateCreateOrUpdate negFiveDraft = .error .InvalidAmount :=
  (C7_invalid_amount_amended negFiveDraft).2.1 (by decide) (by decide)
    (Or.inr ⟨-5, by norm_num, by
      have h : parseParts "-5".data = some (true, 5, 1) := by decide
      norm_num [negFiveDraft, AmountVal.parseFloat, parseFloatStr, parseFloatChars, h,
        partsToJNum]⟩)

/-- C2 counterexample: a draft with non-empty text, present date, amount 5
and declared type expense but category Salary — which is not in
`expenseCategories` — is accepted and normalized rather than rejected with
`InvalidCategory`: the submit handler performs no category check at all. -/
theorem C2_invalid_category_cex :
    badCategoryDraft.category ∉ expenseCategories
    ∧ validateCreateOrUpdate badCategoryDraft ≠ .error .InvalidCategory
    ∧ validateCreateOrUpdate badCategoryDraft
        = .ok { text := "x", amount := .val (-5), category := "Salary",
                type := .expense, date := ⟨2024, 0, 1⟩ } := by
  have h : parseParts "5".data = some (false, 5, 1) := by decide
  have ht : ("x" : String) ≠ "" := by decide
  have ha : ("5" : String) ≠ "" := by decide
  have hok : validateCreateOrUpdate badCategoryDraft
      = .ok { text := "x", amount := .val (-5), category := "Salary",
              type := .expense, date := ⟨2024, 0, 1⟩ } := by
    norm_num [validateCreateOrUpdate, badCategoryDraft, AmountVal.falsy,
      AmountVal.parseFloat, parseFloatStr, parseFloatChars, h, ht, ha, partsToJNum,
      JNum.leZero, JNum.abs, JNum.neg, abs_of_pos]
  refine ⟨by decide, ?_, hok⟩
  intro hc
  rw [hok] at hc
  exact absurd hc (by simp)

/-- C2 amended: the submit handler checks only text/date presence and the
amount; it never emits `InvalidCategory`, and any draft with non-empty text,
present date and an amount parsing to a positive number is accepted with its
category passed through unchanged — whether or not the category belongs to
the enumeration for its type — and the resulting create command reaches
the Record Store. -/
theorem C2_invalid_category_amended (d : Draft) (dt : Date) (q : ℚ)
    (htext : d.text ≠ "") (hdate : d.date = some dt)
    (hq : d.amount.parseFloat = .val q) (hqpos : 0 < q) :
    validateCreateOrUpdate d ≠ .error .InvalidCategory
    ∧ ∃ td, validateCreateOrUpdate d = .ok td ∧ td.category = d.category
        ∧ submitOutcome none d = .created td := by
  have hfal : d.amount.falsy = false := falsy_eq_false_of_parseFloat hq (ne_of_gt hqpos)
  have hle : d.amount.parseFloat.leZero = false := by
    rw [hq, JNum.leZero]
    simpa using hqpos
  have hok : validateCreateOrUpdate d
      = .ok { text := d.text,
              amount := if d.type = TType.expense
                then d.amount.parseFloat.abs.neg else d.amount.parseFloat.abs,
              category := d.category, type := d.type, date := dt } := by
    simp [validateCreateOrUpdate, hdate, htext, hfal, hle]
  refine ⟨by rw [hok]; simp, ?_⟩
  refine ⟨_, hok, rfl, ?_⟩
  rw [submitOutcome, hok]

/-- Witness for the amended C2 at the Salary-as-expense draft. -/
theorem C2_invalid_category_amended_witness :
    validateCreateOrUpdate badCategoryDraft ≠ .error .InvalidCategory
    ∧ ∃ td, validateCreateOrUpdate badCategoryDraft = .ok td
        ∧ td.category = badCategoryDraft.category
        ∧ submitOutcome none badCategoryDraft = .created td :=
  C2_invalid_category_amended badCategoryDraft ⟨2024, 0, 1⟩ 5 (by decide) rfl
    (by
      have h : parseParts "5".data = some (false, 5, 1) := by decide
      norm_num [badCategoryDraft, AmountVal.parseFloat, parseFloatStr, parseFloatChars, h,
        partsToJNum])
    (by norm_num)

/-- C8 counterexample: the claim covers every draft the validator accepts,
but a draft whose amount text parses to `NaN` is accepted and produces a
command whose amount is `NaN` — not the signed magnitude of any number — so
the record invariant `type = expense ↔ amount < 0` fails on it. -/
theorem C8_normalization_cex :
    validateCreateOrUpdate nanExpenseDraft = .ok nanExpenseData
    ∧ nanExpenseData.type = TType.expense
    ∧ ∀ q : ℚ, nanExpenseData.amount ≠ JNum.val q := by
  refine ⟨by decide, by decide, ?_⟩
  intro q h
  simp [nanExpenseData] at h

/-- C8 amended: for every accepted draft whose amount parses to an actual
number `q`, the stored amount is the signed magnitude (`-|q|` for expense,
`+|q|` for income), all other fields pass through unchanged, and the
produced record satisfies `type = expense ↔ amount < 0` and `amount ≠ 0`. -/
theorem C8_normalization_amended (d : Draft) (q : ℚ) (td : TransactionData)
    (hq : d.amount.parseFloat = .val q)
    (hok : validateCreateOrUpdate d = .ok td) :
    td.amount = .val (if d.type = TType.expense then -|q| else |q|)
    ∧ td.text = d.text ∧ td.category = d.category ∧ td.type = d.type
    ∧ d.date = some td.date
    ∧ (td.type = TType.expense ↔ ∃ e, td.amount = JNum.val e ∧ e < 0)
    ∧ td.amount ≠ JNum.val 0 := by
  cases hd : d.date with
  | none =>
    rw [validateCreateOrUpdate] at hok
    simp [hd] at hok
  | some dt =>
    rw [validateCreateOrUpdate] at hok
    simp only [hd] at hok
    by_cases htext : d.text = ""
    · simp [htext] at hok
    · by_cases hcond : (d.amount.falsy ∨ d.amount.parseFloat.leZero)
      · simp [htext, hcond] at hok
      · simp only [htext, hcond, if_neg, if_false] at hok
        push_neg at hcond
        have hqpos : 0 < q := by
          have := hcond.2
          rw [hq, JNum.leZero] at this
          simpa using this
        have htd : td = ⟨d.text,
            (if d.type = TType.expense
              then d.amount.parseFloat.abs.neg else d.amount.parseFloat.abs),
            d.category, d.type, dt⟩ := by
          simpa using hok.symm
        subst htd
        have habs : d.amount.parseFloat.abs = .val |q| := by
          rw [hq, JNum.abs]
        have hamt : (if d.type = TType.expense
            then d.amount.parseFloat.abs.neg else d.amount.parseFloat.abs)
            = .val (if d.type = TType.expense then -|q| else |q|) := by
          by_cases hty : d.type = TType.expense
          · simp [hty, habs, JNum.neg]
          · simp [hty, habs]
        refine ⟨hamt, rfl, rfl, rfl, rfl, ?_, ?_⟩
        · constructor
          · intro hty
            refine ⟨-|q|, ?_, ?_⟩
            · rw [hamt, if_pos hty]
            · simpa using abs_pos.mpr (ne_of_gt hqpos)
          · intro ⟨e, he, hneg⟩
            by_contra hty
            rw [hamt, if_neg hty] at he
            have h3 : |q| = e := by simpa using he
            subst h3
            have : (0 : ℚ) ≤ |q| := abs_nonneg q
            linarith
        · rw [hamt]
          intro hzero
          have : (if d.type = TType.expense then -|q| else |q|) = 0 := by
            simpa using hzero
          have habs0 : |q| ≠ 0 := abs_ne_zero.mpr (ne_of_gt hqpos)
          by_cases hty : d.type = TType.expense
          · rw [if_pos hty] at this
            exact habs0 (by linarith)
          · rw [if_neg hty] at this
            exact habs0 this

/-- Witness for the amended C8 at the accepted 0.01-expense draft. -/
theorem C8_normalization_amended_witness :
    centData.amount
      = .val (if centDraft.type = TType.expense then -|(1 : ℚ)/100| else |(1 : ℚ)/100|)
    ∧ centData.text = centDraft.text
    ∧ centData.category = centDraft.category
    ∧ centData.type = centDraft.type
    ∧ centDraft.date = some centData.date
    ∧ (centData.type = TType.expense ↔ ∃ e, centData.amount = JNum.val e ∧ e < 0)
    ∧ centData.amount ≠ JNum.val 0 :=
  C8_normalization_amended centDraft (1/100) centData
    (by
      have h : parseParts "0.01".data = some (false, 1, 100) := by decide
      norm_num [centDraft, AmountVal.parseFloat, parseFloatStr, parseFloatChars, h,
        partsToJNum])
    (by
      have h : parseParts "0.01".data = some (false, 1, 100) := by decide
      have ht : ("x" : String) ≠ "" := by decide
      have ha : ("0.01" : String) ≠ "" := by decide
      norm_num [validateCreateOrUpdate, centDraft, centData, AmountVal.falsy,
        AmountVal.parseFloat, parseFloatStr, parseFloatChars, h, ht, ha, partsToJNum,
        JNum.leZero, JNum.abs, JNum.neg, abs_of_pos])

/-! Helper lemmas about breakdown lookups. -/

theorem lookup_getD_addAmount (acc : List (String × ℚ)) (cat c : String) (v : ℚ) :
    ((addAmount acc cat v).lookup c).getD 0
      = (acc.lookup c).getD 0 + (if c = cat then v else 0) := by
  induction acc with
  | nil =>
    by_cases h : c = cat
    · have hb : (c == cat) = true := beq_iff_eq.mpr h
      simp [addAmount, List.lookup, hb, h]
    · have hb : (c == cat) = false := beq_eq_false_iff_ne.mpr h
      simp [addAmount, List.lookup, hb, h]
  | cons p rest ih =>
    cases p with
    | mk c2 x =>
      by_cases h2 : c2 = cat
      · subst h2
        by_cases h : c = c2
        · have hb : (c == c2) = true := beq_iff_eq.mpr h
          simp [addAmount, List.lookup, hb, h]
        · have hb : (c == c2) = false := beq_eq_false_iff_ne.mpr h
          simp [addAmount, List.lookup, hb, h]
      · by_cases h : c = c2
        · subst h
          have hb : (c == c) = true := beq_iff_eq.mpr rfl
          simp [addAmount, if_neg h2, List.lookup, hb, h2]
        · have hb : (c == c2) = false := beq_eq_false_iff_ne.mpr h
          simp [addAmount, if_neg h2, List.lookup, hb, ih]

theorem lookup_getD_fold (l : List Transaction) (acc : List (String × ℚ)) (c : String) :
    ((l.foldl (fun acc t => addAmount acc t.category |t.amount|) acc).lookup c).getD 0
      = (acc.lookup c).getD 0
        + sumQ ((l.filter (fun t => decide (t.category = c))).map (fun t => |t.amount|)) := by
  induction l generalizing acc with
  | nil => simp [sumQ]
  | cons t l ih =>
    simp only [List.foldl, List.filter_cons]
    by_cases h : t.category = c
    · simp only [decide_eq_true h, if_true, List.map_cons, sumQ_cons]
      rw [ih, lookup_getD_addAmount, if_pos h.symm]
      ring
    · simp only [decide_eq_false h, Bool.false_eq_true, if_false]
      rw [ih, lookup_getD_addAmount, if_neg (fun hc => h hc.symm)]
      ring

/-! Claim theorem C9. -/

/-- C9: the breakdown handed to the chart is computed over the entire current
record set: it equals `categoryBreakdown` of the full set, does not change
with the selected month or type filter, its value at each category is the
sum of the absolute amounts of all expense records of that category in the
full set, and it has a key exactly for the categories appearing in at least
one expense record. -/
theorem C9_chart_over_full_set (ts : List Transaction) (y m y2 m2 : Nat)
    (f f2 : Filter) (c : String) :
    (aggregate ts y m f).chart = categoryBreakdown ts
    ∧ (aggregate ts y m f).chart = (aggregate ts y2 m2 f2).chart
    ∧ ((aggregate ts y m f).chart.lookup c).getD 0
        = sumQ ((ts.filter
            (fun t => decide (t.type = TType.expense ∧ t.category = c))).map
            (fun t => |t.amount|))
    ∧ (c ∈ (aggregate ts y m f).chart.map Prod.fst
        ↔ ∃ r ∈ ts, r.type = TType.expense ∧ r.category = c) := by
  have hfilter : (ts.filter (fun t => decide (t.type = TType.expense))).filter
      (fun t => decide (t.category = c))
      = ts.filter (fun t => decide (t.type = TType.expense ∧ t.category = c)) := by
    rw [List.filter_filter]
    apply List.filter_congr
    intro a _
    simp [Bool.and_comm]
  refine ⟨rfl, rfl, ?_, ?_⟩
  · show ((categoryBreakdown ts).lookup c).getD 0 = _
    rw [categoryBreakdown, lookup_getD_fold, hfilter]
    simp
  · show c ∈ (categoryBreakdown ts).map Prod.fst ↔ _
    rw [categoryBreakdown, mem_keys_fold]
    simp only [List.map_nil, List.not_mem_nil, false_or]
    constructor
    · intro ⟨t, ht, hc⟩
      have := List.mem_filter.mp ht
      exact ⟨t, this.1, by simpa using this.2, hc⟩
    · intro ⟨r, hr, hty, hc⟩
      exact ⟨r, List.mem_filter.mpr ⟨hr, by simpa using hty⟩, hc⟩

/-! Claim theorems C10. -/

/-- C10 counterexample: the record with amount 0 and type income satisfies
the invariant named in the claim (`type = expense ↔ amount < 0`), yet
submitting its unchanged edit draft is rejected with `InvalidAmount`
(`!amount` is true for the number 0), so no update command is produced. -/
theorem C10_edit_roundtrip_cex :
    (zeroIncome.type = TType.expense ↔ zeroIncome.amount < 0)
    ∧ submitOutcome (some zeroIncome.id) (handleEditTransaction zeroIncome)
        = .rejected .InvalidAmount := by
  constructor
  · constructor
    · intro h
      exact absurd h (by decide)
    · intro h
      exact absurd h (by norm_num [zeroIncome])
  · have ht : ("gift" : String) ≠ "" := by decide
    norm_num [submitOutcome, handleEditTransaction, zeroIncome, validateCreateOrUpdate,
      AmountVal.falsy, abs_zero, ht]

/-- C10 amended: for every record with non-empty text that satisfies both
`type = expense ↔ amount < 0` and `amount ≠ 0`, loading it into the form via
`handleEditTransaction` and submitting unchanged produces an update command
for its id whose mutable fields (text, amount, category, type, date) all
equal those of the original record. -/
theorem C10_edit_roundtrip_amended (r : Transaction)
    (htext : r.text ≠ "") (hsign : r.type = TType.expense ↔ r.amount < 0)
    (hamt : r.amount ≠ 0) :
    submitOutcome (some r.id) (handleEditTransaction r)
      = .updated r.id ⟨r.text, JNum.val r.amount, r.category, r.type, r.date⟩ := by
  have habs0 : |r.amount| ≠ 0 := abs_ne_zero.mpr hamt
  have hfal : (AmountVal.num |r.amount|).falsy = false := by
    simp [AmountVal.falsy, habs0]
  have hle : (JNum.val |r.amount|).leZero = false := by
    simp only [JNum.leZero, decide_eq_false_iff_not, not_le]
    exact abs_pos.mpr hamt
  by_cases hty : r.type = TType.expense
  · have hneg : r.amount < 0 := hsign.mp hty
    have habs : |r.amount| = -r.amount := abs_of_neg hneg
    rw [habs] at hfal hle
    simp [submitOutcome, validateCreateOrUpdate, handleEditTransaction, htext, hfal, hle,
      AmountVal.parseFloat, JNum.abs, JNum.neg, hty, abs_abs, habs]
  · have hnneg : (0 : ℚ) ≤ r.amount := le_of_not_lt (fun hc => hty (hsign.mpr hc))
    have habs : |r.amount| = r.amount := abs_of_nonneg hnneg
    rw [habs] at hfal hle
    simp [submitOutcome, validateCreateOrUpdate, handleEditTransaction, htext, hfal, hle,
      AmountVal.parseFloat, JNum.abs, JNum.neg, hty, abs_abs, habs]

/-- Witness for the amended C10 at the scenario expense record. -/
theorem C10_edit_roundtrip_amended_witness :
    submitOutcome (some scenarioExpenseJan.id) (handleEditTransaction scenarioExpenseJan)
      = .updated scenarioExpenseJan.id
          ⟨scenarioExpenseJan.text, JNum.val scenarioExpenseJan.amount,
            scenarioExpenseJan.category, scenarioExpenseJan.type, scenarioExpenseJan.date⟩ :=
  C10_edit_roundtrip_amended scenarioExpenseJan (by decide) (by decide) (by decide)

end ExpenseApp
